import Mathlib

/-!
# Grounding Resolution Engine — verification development

Shallow embedding of the geometry / resolution core of the agent-server
(`app/services/omniparser.py`, `app/routers/plan.py`, `app/routers/refine.py`).

Conventions of the embedding:
* Python floats are modelled by `ℚ` (exact rational arithmetic);
* Python's `dist = sqrt(dx**2 + dy**2)` comparisons are modelled by comparing
  squared distances against squared thresholds (the square root is strictly
  monotone on nonnegative reals, so every comparison the code performs is
  preserved exactly);
* detector elements carry only the fields the engine reads (`id`,
  `bbox_xyxy`); the free-text `content`/`type` fields are opaque to all of the
  modelled logic and are omitted;
* dictionaries built by comprehension (`{e.id: e for e in elements}`) are
  modelled by a left fold in which a later binding overwrites an earlier one,
  exactly like repeated dict insertion.
-/

/-- A detected UI element (`OmniElement` in `omniparser.py`): integer id and a
normalized `[x1, y1, x2, y2]` bounding box. -/
structure OmniElem where
  id : ℤ
  x1 : ℚ
  y1 : ℚ
  x2 : ℚ
  y2 : ℚ
deriving DecidableEq, Repr

/-- Width of the `xywh` form of the bbox (`bbox_xywh`): `x2 - x1`. -/
def OmniElem.w (e : OmniElem) : ℚ := e.x2 - e.x1

/-- Height of the `xywh` form of the bbox (`bbox_xywh`): `y2 - y1`. -/
def OmniElem.h (e : OmniElem) : ℚ := e.y2 - e.y1

/-- Element area `ew * eh` as computed in `snap_to_nearest_element`. -/
def OmniElem.area (e : OmniElem) : ℚ := e.w * e.h

/-- Element center x: `ex + ew / 2`. -/
def OmniElem.cx (e : OmniElem) : ℚ := e.x1 + e.w / 2

/-- Element center y: `ey + eh / 2`. -/
def OmniElem.cy (e : OmniElem) : ℚ := e.y1 + e.h / 2

/-- The engine's rectangle invariant (spec §3): normalized coordinates with
minimum size ε = 0.02 and the rectangle contained in the unit square. -/
def RectOK (x y w h : ℚ) : Prop :=
  0 ≤ x ∧ x ≤ 1 ∧ 0 ≤ y ∧ y ≤ 1 ∧ 1/50 ≤ w ∧ x + w ≤ 1 ∧ 1/50 ≤ h ∧ y + h ≤ 1

/-- `RectOK` for the `xywh` form of a detected element's bbox. -/
def ElemOK (e : OmniElem) : Prop := RectOK e.x1 e.y1 e.w e.h

/-!
## Detection deduplicator (`omniparser.py`, `_compute_iou` / `_deduplicate_boxes`)
-/

/-- IoU between two `[x1,y1,x2,y2]` boxes (`_compute_iou`). -/
def compute_iou (a b : ℚ × ℚ × ℚ × ℚ) : ℚ :=
  let ix1 := max a.1 b.1
  let iy1 := max a.2.1 b.2.1
  let ix2 := min a.2.2.1 b.2.2.1
  let iy2 := min a.2.2.2 b.2.2.2
  if ix2 ≤ ix1 ∨ iy2 ≤ iy1 then 0
  else
    let inter := (ix2 - ix1) * (iy2 - iy1)
    let area_a := (a.2.2.1 - a.1) * (a.2.2.2 - a.2.1)
    let area_b := (b.2.2.1 - b.1) * (b.2.2.2 - b.2.1)
    let union := area_a + area_b - inter
    if 0 < union then inter / union else 0

/-- `_deduplicate_boxes`: iterate in order (input already sorted by descending
confidence); a candidate is dropped iff its IoU against some already-kept box
exceeds 0.85, otherwise it is appended to the kept list. -/
def deduplicate_boxes (l : List (ℚ × (ℚ × ℚ × ℚ × ℚ))) : List (ℚ × (ℚ × ℚ × ℚ × ℚ)) :=
  l.foldl
    (fun kept cb =>
      if kept.any (fun kb => decide (17/20 < compute_iou cb.2 kb.2)) then kept
      else kept ++ [cb])
    []

/-- Tail of `detect_elements` (lines building `OmniElement` objects): the
deduplicated, confidence-ordered boxes get dense ids `0..N-1` by enumeration. -/
def assign_dense_ids (l : List (ℚ × (ℚ × ℚ × ℚ × ℚ))) : List OmniElem :=
  l.enum.map (fun p => ⟨(p.1 : ℤ), p.2.2.1, p.2.2.2.1, p.2.2.2.2.1, p.2.2.2.2.2⟩)

/-!
## Snap Resolver (`omniparser.py`, `snap_to_nearest_element`)
-/

/-- First element of `l` achieving the strict minimum of `f` (Python builds a
list, stable-sorts it by the key, and takes the first entry; the head of a
stable ascending sort is exactly the first element attaining the minimum). -/
def pickMinBy {α : Type} (f : α → ℚ) (l : List α) : Option α :=
  l.foldl
    (fun acc e =>
      match acc with
      | none => some e
      | some b => if f e < f b then some e else acc)
    none

/-- The size-ratio gate: `e_area / gemini_area >= min_area_ratio` with
`min_area_ratio = 0.15`; `geminiArea` is the already-computed denominator. -/
def sizeEligible (geminiArea : ℚ) (e : OmniElem) : Bool :=
  decide (3/20 ≤ e.area / geminiArea)

/-- Containment test of pass 1: the candidate's center lies inside (inclusive)
the element's bbox; `ex ≤ gcx ≤ ex + ew` is `x1 ≤ gcx ≤ x2`. -/
def containsCenterOf (gcx gcy : ℚ) (e : OmniElem) : Bool :=
  decide (e.x1 ≤ gcx) && decide (gcx ≤ e.x2) &&
  decide (e.y1 ≤ gcy) && decide (gcy ≤ e.y2)

/-- Pass 1 of `snap_to_nearest_element`: collect the eligible elements whose
bbox contains the candidate's center, then take the smallest by area. -/
def snapPass1 (geminiArea gcx gcy : ℚ) (es : List OmniElem) : Option OmniElem :=
  pickMinBy OmniElem.area
    (es.filter (fun e => containsCenterOf gcx gcy e && sizeEligible geminiArea e))

/-- Pass 2 loop of `snap_to_nearest_element`: track `(best_iou_elem, best_iou)`
starting from `(None, 0.0)`, updating whenever a positive-overlap IoU strictly
exceeds the best so far; `gx2 = gx + gw` is the candidate's right edge and
`gy2` its bottom edge. -/
def snapPass2 (geminiArea gx1 gy1 gx2 gy2 gArea : ℚ) (es : List OmniElem) :
    Option OmniElem × ℚ :=
  es.foldl
    (fun acc e =>
      if sizeEligible geminiArea e then
        let ix1 := max gx1 e.x1
        let iy1 := max gy1 e.y1
        let ix2 := min gx2 e.x2
        let iy2 := min gy2 e.y2
        if ix1 < ix2 ∧ iy1 < iy2 then
          let inter := (ix2 - ix1) * (iy2 - iy1)
          let union := gArea + e.area - inter
          let iou := if 0 < union then inter / union else 0
          if acc.2 < iou then (some e, iou) else acc
        else acc
      else acc)
    (none, 0)

/-- Acceptance check after pass 2: `best_iou_elem is not None and best_iou > 0.05`. -/
def snapPass2Accept (geminiArea gx1 gy1 gx2 gy2 gArea : ℚ) (es : List OmniElem) :
    Option OmniElem :=
  match snapPass2 geminiArea gx1 gy1 gx2 gy2 gArea es with
  | (some e, bestIoU) => if 1/20 < bestIoU then some e else none
  | (none, _) => none

/-- Squared center distance of an element's center to the candidate's center
(the code compares `sqrt` of this against thresholds; all comparisons are
preserved by squaring). -/
def distSqTo (gcx gcy : ℚ) (e : OmniElem) : ℚ :=
  (gcx - e.cx)^2 + (gcy - e.cy)^2

/-- Pass 3 loop of `snap_to_nearest_element`: nearest eligible element by
center distance (`best_dist` starts at infinity, modelled by the `none`
accumulator). -/
def snapPass3 (geminiArea gcx gcy : ℚ) (es : List OmniElem) : Option OmniElem :=
  es.foldl
    (fun acc e =>
      if sizeEligible geminiArea e then
        match acc with
        | none => some e
        | some b => if distSqTo gcx gcy e < distSqTo gcx gcy b then some e else acc
      else acc)
    none

/-- Acceptance check after pass 3: `best_elem is not None and best_dist <= max_distance`. -/
def snapPass3Accept (geminiArea gcx gcy maxDistance : ℚ) (es : List OmniElem) :
    Option OmniElem :=
  match snapPass3 geminiArea gcx gcy es with
  | some e => if distSqTo gcx gcy e ≤ maxDistance^2 then some e else none
  | none => none

/-- `snap_to_nearest_element` (omniparser.py, lines 493-602): empty-list
fail-soft, then containment pass, IoU pass, center-distance pass, and the raw
candidate as the unmatched fallback.  `maxDistance` is the keyword parameter
`max_distance` (0.06 at every call site). -/
def snap_to_nearest_element (gx gy gw gh : ℚ) (es : List OmniElem) (maxDistance : ℚ) :
    ℚ × ℚ × ℚ × ℚ × Option ℤ :=
  if es.isEmpty then (gx, gy, gw, gh, none)
  else
    let gcx := gx + gw / 2
    let gcy := gy + gh / 2
    let gArea := gw * gh
    let geminiArea := if 0 < gArea then gArea else 1/10000
    match snapPass1 geminiArea gcx gcy es with
    | some e => (e.x1, e.y1, e.w, e.h, some e.id)
    | none =>
      match snapPass2Accept geminiArea gx gy (gx + gw) (gy + gh) gArea es with
      | some e => (e.x1, e.y1, e.w, e.h, some e.id)
      | none =>
        match snapPass3Accept geminiArea gcx gcy maxDistance es with
        | some e => (e.x1, e.y1, e.w, e.h, some e.id)
        | none => (gx, gy, gw, gh, none)

/-!
## Snap Resolver as the spec describes it (§4.4), for refinement comparison

`snapResolverSpec gate` follows the wording of the spec: a size-ratio filter
computed with denominator `gate candidateArea` gates each of the three ordered
passes.  The claim's gate is `max(candidate.area, ε²)` with ε = 0.02; the
code's gate is `candidate.area if positive else 0.0001`.
-/

/-- The claim's size-ratio denominator: `max(candidate.area, ε²)`, ε = 0.02. -/
def specGateClaim (gArea : ℚ) : ℚ := max gArea (1/2500)

/-- The code's size-ratio denominator: `g_area if g_area > 0 else 0.0001`. -/
def codeGate (gArea : ℚ) : ℚ := if 0 < gArea then gArea else 1/10000

/-- IoU of the candidate rectangle against an element, as spec §4.1 describes
it (0 when the rectangles do not overlap). -/
def iouCand (gx1 gy1 gx2 gy2 gArea : ℚ) (e : OmniElem) : ℚ :=
  let ix1 := max gx1 e.x1
  let iy1 := max gy1 e.y1
  let ix2 := min gx2 e.x2
  let iy2 := min gy2 e.y2
  if ix1 < ix2 ∧ iy1 < iy2 then
    let inter := (ix2 - ix1) * (iy2 - iy1)
    let union := gArea + e.area - inter
    if 0 < union then inter / union else 0
  else 0

/-- The set of size-eligible elements: the size-ratio filter of spec §4.4,
with denominator `d`. -/
def specEligibleSet (d : ℚ) (es : List OmniElem) : List OmniElem :=
  es.filter (fun e => sizeEligible d e)

/-- Spec §4.4 pass 1: among the eligible elements whose bbox contains the
candidate's center, the smallest-area one. -/
def specContainmentPass (gcx gcy : ℚ) (eligible : List OmniElem) : Option OmniElem :=
  pickMinBy OmniElem.area (eligible.filter (containsCenterOf gcx gcy))

/-- Spec §4.4 pass 2 selection: the eligible element of maximum IoU against
the candidate (with its IoU), ties to the earlier element. -/
def specIoUPass (gx1 gy1 gx2 gy2 gArea : ℚ) (eligible : List OmniElem) :
    Option OmniElem × ℚ :=
  eligible.foldl
    (fun acc e =>
      let iou := iouCand gx1 gy1 gx2 gy2 gArea e
      if acc.2 < iou then (some e, iou) else acc)
    (none, 0)

/-- Spec §4.4 pass 3 selection: the eligible element of minimum center
distance (squared distances; ties to the earlier element). -/
def specDistancePass (gcx gcy : ℚ) (eligible : List OmniElem) : Option OmniElem :=
  pickMinBy (distSqTo gcx gcy) eligible

/-- Modelled from the spec: the Snap Resolver of §4.4 described as three
ordered passes over the set of size-eligible elements — containment (smallest
containing element wins), maximum IoU (accepted only above 0.05), minimum
center distance (accepted only within `maxDistance`) — with the unmatched
candidate returned unchanged as fallback.  Parameterized by the size-ratio
denominator `gate`. -/
def snapResolverSpec (gate : ℚ → ℚ) (gx gy gw gh maxDistance : ℚ) (es : List OmniElem) :
    ℚ × ℚ × ℚ × ℚ × Option ℤ :=
  if es.isEmpty then (gx, gy, gw, gh, none)
  else
    let gcx := gx + gw / 2
    let gcy := gy + gh / 2
    let gArea := gw * gh
    let eligible := specEligibleSet (gate gArea) es
    match specContainmentPass gcx gcy eligible with
    | some e => (e.x1, e.y1, e.w, e.h, some e.id)
    | none =>
      match specIoUPass gx gy (gx + gw) (gy + gh) gArea eligible with
      | (some e, bestIoU) =>
        if 1/20 < bestIoU then (e.x1, e.y1, e.w, e.h, some e.id)
        else
          match specDistancePass gcx gcy eligible with
          | some e2 =>
            if distSqTo gcx gcy e2 ≤ maxDistance^2 then (e2.x1, e2.y1, e2.w, e2.h, some e2.id)
            else (gx, gy, gw, gh, none)
          | none => (gx, gy, gw, gh, none)
      | (none, _) =>
        match specDistancePass gcx gcy eligible with
        | some e2 =>
          if distSqTo gcx gcy e2 ≤ maxDistance^2 then (e2.x1, e2.y1, e2.w, e2.h, some e2.id)
          else (gx, gy, gw, gh, none)
        | none => (gx, gy, gw, gh, none)

/-!
## Bbox resolution with cross-validation (`plan.py`, `_resolve_bbox`)
-/

/-- Lookup in `elem_map = {e.id: e for e in elements}`: repeated dict
insertion, so a later element with the same id overwrites an earlier one. -/
def elemLookup (es : List OmniElem) (i : ℤ) : Option OmniElem :=
  es.foldl (fun acc e => if e.id = i then some e else acc) none

/-- The final clamp of `_resolve_bbox` (plan.py lines 161-166). -/
def resolveClamp (x y w h : ℚ) : ℚ × ℚ × ℚ × ℚ :=
  let rx := max 0 (min x 1)
  let ry := max 0 (min y 1)
  let rw := max (1/50) (min w (1 - rx))
  let rh := max (1/50) (min h (1 - ry))
  (rx, ry, rw, rh)

/-- Conversion of a `box_2d = [ymin, xmin, ymax, xmax]` payload (0–1000 scale)
to a normalized `(x, y, w, h)` rectangle; `none` models the Python guard
`if box_2d and len(box_2d) == 4` failing. -/
def box2dToRaw (box_2d : List ℚ) : Option (ℚ × ℚ × ℚ × ℚ) :=
  match box_2d with
  | [ymin, xmin, ymax, xmax] =>
    some (xmin / 1000, ymin / 1000, (xmax - xmin) / 1000, (ymax - ymin) / 1000)
  | _ => none

/-- `_resolve_bbox` before its final clamp (plan.py lines 84-159): element-id
priority with box_2d cross-validation, box_2d-only snapping, and the
center-of-screen fallback.  The agree test `center_dist <= 0.08` is modelled
on squared distances.  In the disagree branch the code uses the snap result
both when it hit a different element and when it confirmed the same element
(the two branches assign the same coordinates), and falls back to the
element-id rectangle when nothing snapped. -/
def resolve_bbox_core (element_id : Option ℤ) (box_2d : Option (List ℚ))
    (es : List OmniElem) : ℚ × ℚ × ℚ × ℚ :=
  let raw := box_2d.bind box2dToRaw
  match element_id.bind (elemLookup es) with
  | some elem =>
    match raw with
    | some (raw_x, raw_y, raw_w, raw_h) =>
      let d2 := (elem.cx - (raw_x + raw_w / 2))^2 + (elem.cy - (raw_y + raw_h / 2))^2
      if d2 ≤ (2/25)^2 then (elem.x1, elem.y1, elem.w, elem.h)
      else
        match snap_to_nearest_element raw_x raw_y raw_w raw_h es (3/50) with
        | (sx, sy, sw, sh, some _) => (sx, sy, sw, sh)
        | (_, _, _, _, none) => (elem.x1, elem.y1, elem.w, elem.h)
    | none => (elem.x1, elem.y1, elem.w, elem.h)
  | none =>
    match raw with
    | some (raw_x, raw_y, raw_w, raw_h) =>
      let s := snap_to_nearest_element raw_x raw_y raw_w raw_h es (3/50)
      (s.1, s.2.1, s.2.2.1, s.2.2.2.1)
    | none => (2/5, 2/5, 1/5, 1/5)

/-- `_resolve_bbox`: the resolution above followed by the final clamp. -/
def resolve_bbox (element_id : Option ℤ) (box_2d : Option (List ℚ))
    (es : List OmniElem) : ℚ × ℚ × ℚ × ℚ :=
  let r := resolve_bbox_core element_id box_2d es
  resolveClamp r.1 r.2.1 r.2.2.1 r.2.2.2

/-!
## Refine stitch-back (`refine.py`, `_stitch_back`)
-/

/-- `_stitch_back`: map a crop-normalized bbox `(bx, by, bw, bh)` into the
full image through crop rect `(cx, cy, cw, ch)`, then clamp (with minimum
size 0.001). -/
def stitch_back (bx bby bw bh cx cy cw ch : ℚ) : ℚ × ℚ × ℚ × ℚ :=
  let x := cx + bx * cw
  let y := cy + bby * ch
  let w := bw * cw
  let h := bh * ch
  let x2 := max 0 (min x 1)
  let y2 := max 0 (min y 1)
  let w2 := max (1/1000) (min w (1 - x2))
  let h2 := max (1/1000) (min h (1 - y2))
  (x2, y2, w2, h2)

/-!
## SoM grid-marker resolution (`plan.py`, `_som_plan_to_step_plan`)
-/

/-- A grid marker: id and normalized center. -/
structure SoMMarker where
  id : ℤ
  cx : ℚ
  cy : ℚ
deriving DecidableEq, Repr

/-- Lookup in `marker_map = {m.id: m for m in markers}` (dict semantics). -/
def markerLookup (ms : List SoMMarker) (i : ℤ) : Option SoMMarker :=
  ms.foldl (fun acc m => if m.id = i then some m else acc) none

/-- The target-rectangle computation of `_som_plan_to_step_plan` (plan.py
lines 467-514) for one step: drop unknown marker ids, fall back to the
center-of-screen rectangle when none are known, otherwise span the known
centers, pad by `_DEFAULT_MARKER_BBOX_HALF = 0.08`, clamp, and enforce the
0.02 minimum size. -/
def som_step_rect (marker_ids : List ℤ) (ms : List SoMMarker) : ℚ × ℚ × ℚ × ℚ :=
  let found := marker_ids.filterMap (markerLookup ms)
  match found with
  | [] => (2/5, 2/5, 1/5, 1/5)
  | m0 :: rest =>
    let min_cx := rest.foldl (fun a m => min a m.cx) m0.cx
    let max_cx := rest.foldl (fun a m => max a m.cx) m0.cx
    let min_cy := rest.foldl (fun a m => min a m.cy) m0.cy
    let max_cy := rest.foldl (fun a m => max a m.cy) m0.cy
    let pad := 2/25
    let x := max 0 (min_cx - pad)
    let y := max 0 (min_cy - pad)
    let w := min (max_cx - min_cx + pad * 2) (1 - x)
    let h := min (max_cy - min_cy + pad * 2) (1 - y)
    (x, y, max w (1/50), max h (1/50))

/-!
## Edge-aware refine crop (`plan.py`, `_crop_region`)
-/

/-- `_crop_region` geometry (plan.py lines 861-907): pad by
`_OMNI_REFINE_PADDING = 0.10`, enforce `_OMNI_MIN_CROP = 0.20` re-centered on
the target, snap to any screen edge within `_EDGE_SNAP_THRESHOLD = 0.15` of
the target center, and clamp to the unit square. -/
def crop_region (tx ty tw th : ℚ) : ℚ × ℚ × ℚ × ℚ :=
  let pad := 1/10
  let cx0 := tx - pad
  let cy0 := ty - pad
  let cw0 := tw + pad * 2
  let ch0 := th + pad * 2
  let cx1 := if cw0 < 1/5 then tx + tw / 2 - 1/10 else cx0
  let cw1 := if cw0 < 1/5 then 1/5 else cw0
  let cy1 := if ch0 < 1/5 then ty + th / 2 - 1/10 else cy0
  let ch1 := if ch0 < 1/5 then 1/5 else ch0
  let target_cx := tx + tw / 2
  let target_cy := ty + th / 2
  let cw2 := if target_cx < 3/20 then cw1 + cx1 else cw1
  let cx2 := if target_cx < 3/20 then 0 else cx1
  let ch2 := if target_cy < 3/20 then ch1 + cy1 else ch1
  let cy2 := if target_cy < 3/20 then 0 else cy1
  let cw3 := if 17/20 < target_cx then 1 - cx2 else cw2
  let ch3 := if 17/20 < target_cy then 1 - cy2 else ch2
  let cxf := max 0 cx2
  let cyf := max 0 cy2
  (cxf, cyf, min cw3 (1 - cxf), min ch3 (1 - cyf))

/-!
## Verification step (`plan.py`, `_verify_and_correct_step`)

The pixel cropping, the YOLO re-detection on the crop, and the LLM verdict are
external collaborators; the detected crop-local elements and the verdict enter
the model as parameters.  `none` for the verdict models the `verify_element`
call raising.
-/

/-- The verification crop (plan.py lines 202-216): pad `_VERIFY_CROP_PAD =
0.08`, minimum size `_VERIFY_MIN_CROP = 0.15` re-centered on the target. -/
def verify_crop (rx ry rw rh : ℚ) : ℚ × ℚ × ℚ × ℚ :=
  let pad := 2/25
  let cx := max 0 (rx - pad)
  let cy := max 0 (ry - pad)
  let cw := min (rw + pad * 2) (1 - cx)
  let ch := min (rh + pad * 2) (1 - cy)
  let cx2 := if cw < 3/20 then max 0 (rx + rw / 2 - 3/40) else cx
  let cw2 := if cw < 3/20 then min (3/20) (1 - cx2) else cw
  let cy2 := if ch < 3/20 then max 0 (ry + rh / 2 - 3/40) else cy
  let ch2 := if ch < 3/20 then min (3/20) (1 - cy2) else ch
  (cx2, cy2, cw2, ch2)

/-- Sort key of `crop_elements.sort(key=lambda e: (e.bbox_xyxy[1],
e.bbox_xyxy[0]))`: strict lexicographic comparison on `(y1, x1)` (with the
strict relation, Mathlib's insertion sort keeps ties in input order, matching
Python's stable sort). -/
def posLt (a b : OmniElem) : Prop :=
  a.y1 < b.y1 ∨ (a.y1 = b.y1 ∧ a.x1 < b.x1)

instance : DecidableRel posLt := fun a b => by unfold posLt; infer_instance

/-- Renumbering `for i, e in enumerate(crop_elements): e.id = i`. -/
def renumber (es : List OmniElem) : List OmniElem :=
  es.enum.map (fun p => ⟨(p.1 : ℤ), p.2.x1, p.2.y1, p.2.x2, p.2.y2⟩)

/-- The verdict returned by the verification LLM call: `correct`, an optional
`correct_element_id`, and an optional `box_2d` payload. -/
structure VerifyResult where
  correct : Bool
  correct_element_id : Option ℤ
  box_2d : Option (List ℚ)

/-- `_verify_and_correct_step` (plan.py lines 179-338), with the crop-local
detection result and the LLM verdict as parameters.  The nearest-element
computation feeding the LLM prompt (lines 261-275) does not influence the
returned rectangle and is not repeated here.  Fail-soft paths return the
resolved input rectangle unchanged; corrections are mapped from crop-local
back to full-image coordinates. -/
def verify_and_correct_step (rx ry rw rh : ℚ) (crop_elements : List OmniElem)
    (verdict : Option VerifyResult) : ℚ × ℚ × ℚ × ℚ :=
  let c := verify_crop rx ry rw rh
  let cx := c.1
  let cy := c.2.1
  let cw := c.2.2.1
  let ch := c.2.2.2
  let ces := renumber (List.insertionSort posLt crop_elements)
  if ces.isEmpty then (rx, ry, rw, rh)
  else
    match verdict with
    | none => (rx, ry, rw, rh)
    | some v =>
      if v.correct then (rx, ry, rw, rh)
      else
        match v.correct_element_id.bind (elemLookup ces) with
        | some ce => (cx + ce.x1 * cw, cy + ce.y1 * ch, ce.w * cw, ce.h * ch)
        | none =>
          match v.box_2d.bind box2dToRaw with
          | some (crx, cry, crw, crh) =>
            let s := snap_to_nearest_element crx cry crw crh ces (3/50)
            (cx + s.1 * cw, cy + s.2.1 * ch, s.2.2.1 * cw, s.2.2.2.1 * ch)
          | none => (rx, ry, rw, rh)

/-!
## Session cache (`plan.py`, `_session_cache` / `_prune_sessions` /
the take in `create_plan_stream`)
-/

/-- A cached session: creation timestamp `ts` and the precomputed detection
results (the other cached payloads are opaque to the modelled logic). -/
structure SessionEntry where
  ts : ℚ
  elements : List OmniElem

/-- Store under a session id (dict assignment: overwrites any previous entry). -/
def put_session (sid : ℤ) (e : SessionEntry) (c : List (ℤ × SessionEntry)) :
    List (ℤ × SessionEntry) :=
  (sid, e) :: c.filter (fun p => decide (p.1 ≠ sid))

/-- The consume step of `create_plan_stream` (plan.py lines 1369-1371):
`_session_cache.pop(session_id, None)` removes the entry unconditionally, and
the entry is used only if `now - ts < _SESSION_TTL` (120 s).  Returns the
usable entry (if any) and the cache after the pop. -/
def take_session (now : ℚ) (sid : ℤ) (c : List (ℤ × SessionEntry)) :
    Option SessionEntry × List (ℤ × SessionEntry) :=
  let cached := (c.find? (fun p => decide (p.1 = sid))).map Prod.snd
  let c2 := c.filter (fun p => decide (p.1 ≠ sid))
  match cached with
  | some e => (if now - e.ts < 120 then some e else none, c2)
  | none => (none, c2)

/-- `_prune_sessions`: delete every entry with `now - ts > _SESSION_TTL`. -/
def prune_sessions (now : ℚ) (c : List (ℤ × SessionEntry)) :
    List (ℤ × SessionEntry) :=
  c.filter (fun p => decide (¬ 120 < now - p.2.ts))

/-!
## Helper lemmas
-/

theorem max_min_le_max (lo w c : ℚ) : max lo (min w c) ≤ max lo c :=
  max_le_max le_rfl (min_le_right w c)

/-- A left fold whose step either keeps the selected value or selects the
current list element only ever selects members of the list. -/
theorem foldl_select_mem {α γ : Type} (g : γ → Option α) (step : γ → α → γ)
    (hstep : ∀ acc e, g (step acc e) = g acc ∨ g (step acc e) = some e) :
    ∀ (l : List α) (acc : γ) (e : α),
      g (l.foldl step acc) = some e → g acc = some e ∨ e ∈ l := by
  intro l
  induction l with
  | nil => intro acc e he; exact Or.inl he
  | cons a t ih =>
    intro acc e he
    rcases ih (step acc a) e he with h1 | h2
    · rcases hstep acc a with h3 | h3
      · exact Or.inl (h3 ▸ h1)
      · rw [h3] at h1
        exact Or.inr (by simp [Option.some_inj.mp h1])
    · exact Or.inr (List.mem_cons_of_mem a h2)

theorem pickMinBy_mem {α : Type} (f : α → ℚ) (l : List α) (e : α)
    (h : pickMinBy f l = some e) : e ∈ l := by
  have := foldl_select_mem (fun acc : Option α => acc) (fun acc e =>
      match acc with
      | none => some e
      | some b => if f e < f b then some e else acc)
    (by
      intro acc e
      match acc with
      | none => exact Or.inr rfl
      | some b =>
        by_cases hlt : f e < f b
        · simp [hlt]
        · simp [hlt]) l none e h
  rcases this with h1 | h1
  · simp at h1
  · exact h1

theorem foldl_filter_eq {α β : Type} (p : α → Bool) (f : β → α → β) (l : List α) :
    ∀ b : β, (l.filter p).foldl f b = l.foldl (fun x y => if p y then f x y else x) b := by
  induction l with
  | nil => intro b; rfl
  | cons a t ih =>
    intro b
    by_cases h : p a
    · simp [List.filter_cons, h, ih]
    · simp [List.filter_cons, h, ih]

/-- Two folds agree when their steps agree on every accumulator satisfying an
invariant preserved by the first step. -/
theorem foldl_congr_inv {α γ : Type} (P : γ → Prop) (f g : γ → α → γ)
    (hP : ∀ acc e, P acc → P (f acc e))
    (hfg : ∀ acc e, P acc → f acc e = g acc e) :
    ∀ (l : List α) (acc : γ), P acc → l.foldl f acc = l.foldl g acc := by
  intro l
  induction l with
  | nil => intro acc _; rfl
  | cons a t ih =>
    intro acc hacc
    have h1 : g acc a = f acc a := (hfg acc a hacc).symm
    simp only [List.foldl_cons, h1]
    exact ih (f acc a) (hP acc a hacc)

/-- `resolveClamp` fixes every rectangle satisfying the engine invariant. -/
theorem resolveClamp_fixed (x y w h : ℚ) (hr : RectOK x y w h) :
    resolveClamp x y w h = (x, y, w, h) := by
  obtain ⟨h1, h2, h3, h4, h5, h6, h7, h8⟩ := hr
  unfold resolveClamp
  dsimp only
  have hx : max 0 (min x 1) = x := by
    rw [min_eq_left h2, max_eq_right h1]
  have hy : max 0 (min y 1) = y := by
    rw [min_eq_left h4, max_eq_right h3]
  rw [hx, hy]
  have hw : max (1/50) (min w (1 - x)) = w := by
    rw [min_eq_left (by linarith), max_eq_right h5]
  have hh : max (1/50) (min h (1 - y)) = h := by
    rw [min_eq_left (by linarith), max_eq_right h7]
  rw [hw, hh]

/-!
## C1 — clamp totality
-/

/-- C1 (counterexample): the claimed invariant does not hold unconditionally.
The stitch-back step of the refine path enforces only a 0.001 minimum size,
so the degenerate crop-local box `(0,0,0,0)` in the identity crop yields a
width of 0.001 < 0.02; and `_resolve_bbox`'s final clamp at `x = 1` yields
`x + w = 1 + 0.02 > 1`. -/
theorem c1_clamp_invariant_counterexample :
    (stitch_back 0 0 0 0 0 0 1 1).2.2.1 < 1/50 ∧
    1 < (resolveClamp 1 0 (1/2) (1/2)).1 + (resolveClamp 1 0 (1/2) (1/2)).2.2.1 := by
  norm_num [stitch_back, resolveClamp]

/-- C1 (amended): for every rational input rectangle, the final clamp of
`_resolve_bbox` yields `0 ≤ x ≤ 1`, `0 ≤ y ≤ 1`, `w ≥ 0.02`, `h ≥ 0.02`, and
`x + w ≤ 1` whenever `x ≤ 0.98` (in general `x + w ≤ max 1 (x + 0.02)`), and
symmetrically for `y`; the stitch-back step of the refine path yields the
same bounds with minimum size 0.001 in place of 0.02 (so `x + w ≤ 1` holds
whenever `x ≤ 0.999`). -/
theorem c1_clamp_totality_amended :
    (∀ x y w h rx ry rw rh : ℚ, resolveClamp x y w h = (rx, ry, rw, rh) →
      0 ≤ rx ∧ rx ≤ 1 ∧ 0 ≤ ry ∧ ry ≤ 1 ∧ 1/50 ≤ rw ∧ 1/50 ≤ rh ∧
      (rx ≤ 49/50 → rx + rw ≤ 1) ∧ (ry ≤ 49/50 → ry + rh ≤ 1) ∧
      rx + rw ≤ max 1 (rx + 1/50) ∧ ry + rh ≤ max 1 (ry + 1/50)) ∧
    (∀ bx bby bw bh cx cy cw ch rx ry rw rh : ℚ,
      stitch_back bx bby bw bh cx cy cw ch = (rx, ry, rw, rh) →
      0 ≤ rx ∧ rx ≤ 1 ∧ 0 ≤ ry ∧ ry ≤ 1 ∧ 1/1000 ≤ rw ∧ 1/1000 ≤ rh ∧
      (rx ≤ 999/1000 → rx + rw ≤ 1) ∧ (ry ≤ 999/1000 → ry + rh ≤ 1) ∧
      rx + rw ≤ max 1 (rx + 1/1000) ∧ ry + rh ≤ max 1 (ry + 1/1000)) := by
  constructor
  · intro x y w h rx ry rw rh heq
    simp only [resolveClamp, Prod.mk.injEq] at heq
    obtain ⟨hrx, hry, hrw, hrh⟩ := heq
    subst hrx hry hrw hrh
    have hx0 : (0:ℚ) ≤ max 0 (min x 1) := le_max_left 0 _
    have hx1 : max 0 (min x 1) ≤ 1 := max_le (by norm_num) (min_le_right x 1)
    have hy0 : (0:ℚ) ≤ max 0 (min y 1) := le_max_left 0 _
    have hy1 : max 0 (min y 1) ≤ 1 := max_le (by norm_num) (min_le_right y 1)
    have hwle : max (1/50) (min w (1 - max 0 (min x 1))) ≤ max (1/50) (1 - max 0 (min x 1)) :=
      max_min_le_max _ _ _
    have hhle : max (1/50) (min h (1 - max 0 (min y 1))) ≤ max (1/50) (1 - max 0 (min y 1)) :=
      max_min_le_max _ _ _
    refine ⟨hx0, hx1, hy0, hy1, le_max_left _ _, le_max_left _ _, ?_, ?_, ?_, ?_⟩
    · intro hle
      have : max (1/50 : ℚ) (1 - max 0 (min x 1)) = 1 - max 0 (min x 1) :=
        max_eq_right (by linarith)
      linarith [hwle.trans this.le]
    · intro hle
      have : max (1/50 : ℚ) (1 - max 0 (min y 1)) = 1 - max 0 (min y 1) :=
        max_eq_right (by linarith)
      linarith [hhle.trans this.le]
    · rcases le_total (1 - max 0 (min x 1)) (1/50 : ℚ) with hc | hc
      · have : max (1/50 : ℚ) (1 - max 0 (min x 1)) = 1/50 := max_eq_left hc
        refine le_max_of_le_right ?_
        linarith [hwle.trans this.le]
      · have : max (1/50 : ℚ) (1 - max 0 (min x 1)) = 1 - max 0 (min x 1) := max_eq_right hc
        refine le_max_of_le_left ?_
        linarith [hwle.trans this.le]
    · rcases le_total (1 - max 0 (min y 1)) (1/50 : ℚ) with hc | hc
      · have : max (1/50 : ℚ) (1 - max 0 (min y 1)) = 1/50 := max_eq_left hc
        refine le_max_of_le_right ?_
        linarith [hhle.trans this.le]
      · have : max (1/50 : ℚ) (1 - max 0 (min y 1)) = 1 - max 0 (min y 1) := max_eq_right hc
        refine le_max_of_le_left ?_
        linarith [hhle.trans this.le]
  · intro bx bby bw bh cx cy cw ch rx ry rw rh heq
    simp only [stitch_back, Prod.mk.injEq] at heq
    obtain ⟨hrx, hry, hrw, hrh⟩ := heq
    subst hrx hry hrw hrh
    set x := cx + bx * cw with hxdef
    set y := cy + bby * ch with hydef
    have hx0 : (0:ℚ) ≤ max 0 (min x 1) := le_max_left 0 _
    have hx1 : max 0 (min x 1) ≤ 1 := max_le (by norm_num) (min_le_right x 1)
    have hy0 : (0:ℚ) ≤ max 0 (min y 1) := le_max_left 0 _
    have hy1 : max 0 (min y 1) ≤ 1 := max_le (by norm_num) (min_le_right y 1)
    have hwle : max (1/1000) (min (bw * cw) (1 - max 0 (min x 1))) ≤
        max (1/1000) (1 - max 0 (min x 1)) := max_min_le_max _ _ _
    have hhle : max (1/1000) (min (bh * ch) (1 - max 0 (min y 1))) ≤
        max (1/1000) (1 - max 0 (min y 1)) := max_min_le_max _ _ _
    refine ⟨hx0, hx1, hy0, hy1, le_max_left _ _, le_max_left _ _, ?_, ?_, ?_, ?_⟩
    · intro hle
      have : max (1/1000 : ℚ) (1 - max 0 (min x 1)) = 1 - max 0 (min x 1) :=
        max_eq_right (by linarith)
      linarith [hwle.trans this.le]
    · intro hle
      have : max (1/1000 : ℚ) (1 - max 0 (min y 1)) = 1 - max 0 (min y 1) :=
        max_eq_right (by linarith)
      linarith [hhle.trans this.le]
    · rcases le_total (1 - max 0 (min x 1)) (1/1000 : ℚ) with hc | hc
      · have : max (1/1000 : ℚ) (1 - max 0 (min x 1)) = 1/1000 := max_eq_left hc
        refine le_max_of_le_right ?_
        linarith [hwle.trans this.le]
      · have : max (1/1000 : ℚ) (1 - max 0 (min x 1)) = 1 - max 0 (min x 1) := max_eq_right hc
        refine le_max_of_le_left ?_
        linarith [hwle.trans this.le]
    · rcases le_total (1 - max 0 (min y 1)) (1/1000 : ℚ) with hc | hc
      · have : max (1/1000 : ℚ) (1 - max 0 (min y 1)) = 1/1000 := max_eq_left hc
        refine le_max_of_le_right ?_
        linarith [hhle.trans this.le]
      · have : max (1/1000 : ℚ) (1 - max 0 (min y 1)) = 1 - max 0 (min y 1) := max_eq_right hc
        refine le_max_of_le_left ?_
        linarith [hhle.trans this.le]

theorem c1_clamp_totality_amended_witness :
    (resolveClamp (1/4) (1/4) 2 2).1 + (resolveClamp (1/4) (1/4) 2 2).2.2.1 ≤ 1 ∧
    (stitch_back 0 0 2 2 0 0 1 1).1 + (stitch_back 0 0 2 2 0 0 1 1).2.2.1 ≤ 1 := by
  constructor
  · exact (c1_clamp_totality_amended.1 (1/4) (1/4) 2 2 _ _ _ _ rfl).2.2.2.2.2.2.1
      (by norm_num [resolveClamp])
  · exact (c1_clamp_totality_amended.2 0 0 2 2 0 0 1 1 _ _ _ _ rfl).2.2.2.2.2.2.1
      (by norm_num [stitch_back])

/-!
## C9 — session cache: read-once consumption, TTL, pruning
-/

/-- C9: consuming a session entry removes it from the cache regardless of
age (read-once); the cached detection results are used only when
`now - createdAt < 120`; a take 121 seconds after the put yields nothing even
if the entry was never previously read; and pruning keeps exactly the entries
aged at most the TTL (removing every never-read entry older than 120). -/
theorem c9_session_cache_semantics :
    (∀ (now : ℚ) (sid : ℤ) (c : List (ℤ × SessionEntry)) (p : ℤ × SessionEntry),
        p ∈ (take_session now sid c).2 → p.1 ≠ sid) ∧
    (∀ (now : ℚ) (sid : ℤ) (c : List (ℤ × SessionEntry)) (e : SessionEntry),
        (take_session now sid c).1 = some e → now - e.ts < 120) ∧
    (∀ (t : ℚ) (sid : ℤ) (els : List OmniElem) (c : List (ℤ × SessionEntry)),
        (take_session (t + 121) sid (put_session sid ⟨t, els⟩ c)).1 = none) ∧
    (∀ (now : ℚ) (c : List (ℤ × SessionEntry)) (p : ℤ × SessionEntry),
        p ∈ prune_sessions now c ↔ p ∈ c ∧ now - p.2.ts ≤ 120) := by
  refine ⟨?_, ?_, ?_, ?_⟩
  · intro now sid c p hp
    unfold take_session at hp
    dsimp only at hp
    have hmem : p ∈ c.filter (fun p => decide (p.1 ≠ sid)) := by
      rcases hfind : (c.find? (fun p => decide (p.1 = sid))).map Prod.snd with _ | e
      · rw [hfind] at hp; exact hp
      · rw [hfind] at hp; exact hp
    exact of_decide_eq_true (List.mem_filter.mp hmem).2
  · intro now sid c e he
    unfold take_session at he
    dsimp only at he
    rcases hfind : (c.find? (fun p => decide (p.1 = sid))).map Prod.snd with _ | e2
    · rw [hfind] at he; exact absurd he (by simp)
    · rw [hfind] at he
      dsimp only at he
      by_cases hc : now - e2.ts < 120
      · rw [if_pos hc] at he
        cases he
        exact hc
      · rw [if_neg hc] at he
        exact absurd he (by simp)
  · intro t sid els c
    unfold take_session put_session
    simp only [List.find?_cons]
    norm_num
  · intro now c p
    simp [prune_sessions, List.mem_filter, not_lt]

theorem c9_session_cache_semantics_witness :
    ((10:ℚ) - (0:ℚ) < 120) ∧
    (take_session 121 0 (put_session 0 ⟨0, []⟩ [])).1 = none := by
  constructor
  · refine c9_session_cache_semantics.2.1 10 0 (put_session 0 ⟨0, []⟩ []) ⟨0, []⟩ ?_
    norm_num [take_session, put_session, List.find?]
  · simpa using c9_session_cache_semantics.2.2.1 0 0 [] []

/-!
## C4 — deduplicator and dense id assignment
-/

theorem dedup_snoc (l : List (ℚ × (ℚ × ℚ × ℚ × ℚ))) (cb : ℚ × (ℚ × ℚ × ℚ × ℚ)) :
    deduplicate_boxes (l ++ [cb]) =
      if (deduplicate_boxes l).any (fun kb => decide (17/20 < compute_iou cb.2 kb.2))
      then deduplicate_boxes l else deduplicate_boxes l ++ [cb] := by
  unfold deduplicate_boxes
  rw [List.foldl_append]
  simp only [List.foldl_cons, List.foldl_nil]

/-- C4: processing a confidence-sorted detection list in order, a box is kept
iff its IoU with every already-kept box (the deduplication of the preceding
prefix) does not exceed 0.85; `detect_elements` then assigns the kept boxes
dense ids `0..N-1` in order; two boxes with IoU 0.9 at confidences 0.8/0.6
leave only the first, while two boxes with IoU 0.5 both survive. -/
theorem c4_dedup_keeps_iff_iou_low :
    (∀ (l : List (ℚ × (ℚ × ℚ × ℚ × ℚ))) (cb : ℚ × (ℚ × ℚ × ℚ × ℚ)),
        deduplicate_boxes (l ++ [cb]) =
          if (deduplicate_boxes l).all (fun kb => decide (compute_iou cb.2 kb.2 ≤ 17/20))
          then deduplicate_boxes l ++ [cb] else deduplicate_boxes l) ∧
    (∀ ks : List (ℚ × (ℚ × ℚ × ℚ × ℚ)),
        (assign_dense_ids ks).map OmniElem.id = (List.range ks.length).map Int.ofNat) ∧
    (compute_iou (0, 1/20, 1, 1) (0, 0, 1, 19/20) = 9/10 ∧
      deduplicate_boxes [(4/5, (0, 0, 1, 19/20)), (3/5, (0, 1/20, 1, 1))] =
        [(4/5, (0, 0, 1, 19/20))]) ∧
    (compute_iou (0, 1/5, 1, 4/5) (0, 0, 1, 3/5) = 1/2 ∧
      deduplicate_boxes [(4/5, (0, 0, 1, 3/5)), (3/5, (0, 1/5, 1, 4/5))] =
        [(4/5, (0, 0, 1, 3/5)), (3/5, (0, 1/5, 1, 4/5))]) := by
  refine ⟨?_, ?_, ?_, ?_⟩
  · intro l cb
    rw [dedup_snoc]
    by_cases h : (deduplicate_boxes l).any (fun kb => decide (17/20 < compute_iou cb.2 kb.2)) = true
    · rw [if_pos h]
      have hall : ¬ ((deduplicate_boxes l).all
          (fun kb => decide (compute_iou cb.2 kb.2 ≤ 17/20)) = true) := by
        simp only [List.any_eq_true, decide_eq_true_eq] at h
        obtain ⟨kb, hkb, hlt⟩ := h
        intro hall
        have := List.all_eq_true.mp hall kb hkb
        simp only [decide_eq_true_eq] at this
        linarith
      rw [if_neg hall]
    · rw [if_neg h]
      have hall : (deduplicate_boxes l).all
          (fun kb => decide (compute_iou cb.2 kb.2 ≤ 17/20)) = true := by
        simp only [List.any_eq_true, decide_eq_true_eq, not_exists] at h
        push_neg at h
        simp only [List.all_eq_true, decide_eq_true_eq]
        intro kb hkb
        exact h kb hkb
      rw [if_pos hall]
  · intro ks
    simp only [assign_dense_ids, List.map_map]
    rw [← List.enum_map_fst ks, List.map_map]
    rfl
  · constructor
    · simp only [compute_iou, max_def, min_def]
      norm_num
    · simp only [deduplicate_boxes, List.foldl_cons, List.foldl_nil, List.any_nil,
        List.any_cons, compute_iou, max_def, min_def]
      norm_num
  · constructor
    · simp only [compute_iou, max_def, min_def]
      norm_num
    · simp only [deduplicate_boxes, List.foldl_cons, List.foldl_nil, List.any_nil,
        List.any_cons, compute_iou, max_def, min_def]
      norm_num

/-!
## Membership lemmas for the snap passes
-/

theorem snapPass1_mem (geminiArea gcx gcy : ℚ) (es : List OmniElem) (e : OmniElem)
    (h : snapPass1 geminiArea gcx gcy es = some e) : e ∈ es :=
  List.mem_of_mem_filter (pickMinBy_mem _ _ _ h)

theorem snapPass2_fst_mem (geminiArea gx1 gy1 gx2 gy2 gArea : ℚ) (es : List OmniElem)
    (e : OmniElem) (h : (snapPass2 geminiArea gx1 gy1 gx2 gy2 gArea es).1 = some e) :
    e ∈ es := by
  have := foldl_select_mem (fun acc : Option OmniElem × ℚ => acc.1)
    (fun acc e =>
      if sizeEligible geminiArea e then
        let ix1 := max gx1 e.x1
        let iy1 := max gy1 e.y1
        let ix2 := min gx2 e.x2
        let iy2 := min gy2 e.y2
        if ix1 < ix2 ∧ iy1 < iy2 then
          let inter := (ix2 - ix1) * (iy2 - iy1)
          let union := gArea + e.area - inter
          let iou := if 0 < union then inter / union else 0
          if acc.2 < iou then (some e, iou) else acc
        else acc
      else acc)
    (by
      intro acc e
      dsimp only
      split_ifs <;> simp) es (none, 0) e h
  rcases this with h1 | h1
  · simp at h1
  · exact h1

theorem snapPass3_mem (geminiArea gcx gcy : ℚ) (es : List OmniElem) (e : OmniElem)
    (h : snapPass3 geminiArea gcx gcy es = some e) : e ∈ es := by
  have := foldl_select_mem (fun acc : Option OmniElem => acc)
    (fun acc e =>
      if sizeEligible geminiArea e then
        match acc with
        | none => some e
        | some b => if distSqTo gcx gcy e < distSqTo gcx gcy b then some e else acc
      else acc)
    (by
      intro acc e
      match acc with
      | none => by_cases hse : sizeEligible geminiArea e <;> simp [hse]
      | some b =>
        by_cases hse : sizeEligible geminiArea e
        · by_cases hd : distSqTo gcx gcy e < distSqTo gcx gcy b <;> simp [hse, hd]
        · simp [hse]) es none e h
  rcases this with h1 | h1
  · simp at h1
  · exact h1

theorem snapPass2Accept_mem (geminiArea gx1 gy1 gx2 gy2 gArea : ℚ) (es : List OmniElem)
    (e : OmniElem) (h : snapPass2Accept geminiArea gx1 gy1 gx2 gy2 gArea es = some e) :
    e ∈ es := by
  unfold snapPass2Accept at h
  rcases hp : snapPass2 geminiArea gx1 gy1 gx2 gy2 gArea es with ⟨eo, b⟩
  rw [hp] at h
  match eo with
  | none => simp at h
  | some e2 =>
    dsimp only at h
    apply snapPass2_fst_mem geminiArea gx1 gy1 gx2 gy2 gArea es e
    rw [hp]
    dsimp only
    by_cases hb : 1/20 < b
    · rw [if_pos hb] at h
      exact h
    · rw [if_neg hb] at h
      exact absurd h (by simp)

theorem snapPass3Accept_mem (geminiArea gcx gcy maxDistance : ℚ) (es : List OmniElem)
    (e : OmniElem) (h : snapPass3Accept geminiArea gcx gcy maxDistance es = some e) :
    e ∈ es := by
  unfold snapPass3Accept at h
  rcases hp : snapPass3 geminiArea gcx gcy es with _ | e2
  · rw [hp] at h
    simp at h
  · rw [hp] at h
    dsimp only at h
    by_cases hd : distSqTo gcx gcy e2 ≤ maxDistance^2
    · rw [if_pos hd] at h
      cases h
      exact snapPass3_mem geminiArea gcx gcy es _ hp
    · rw [if_neg hd] at h
      exact absurd h (by simp)

/-!
## C5 — unmatched fail-soft
-/

/-- C5: when the element list is empty, or none of the three passes accepts a
match, the Snap Resolver returns its candidate rectangle unchanged, with no
matched element id. -/
theorem c5_snap_unmatched_fail_soft :
    ∀ (gx gy gw gh maxd : ℚ) (es : List OmniElem),
      (es = [] ∨
        (snapPass1 (if 0 < gw * gh then gw * gh else 1/10000) (gx + gw / 2) (gy + gh / 2) es
            = none ∧
         snapPass2Accept (if 0 < gw * gh then gw * gh else 1/10000) gx gy (gx + gw) (gy + gh)
            (gw * gh) es = none ∧
         snapPass3Accept (if 0 < gw * gh then gw * gh else 1/10000) (gx + gw / 2) (gy + gh / 2)
            maxd es = none)) →
      snap_to_nearest_element gx gy gw gh es maxd = (gx, gy, gw, gh, none) := by
  intro gx gy gw gh maxd es h
  rcases h with h | ⟨h1, h2, h3⟩
  · subst h
    rfl
  · unfold snap_to_nearest_element
    by_cases he : es.isEmpty
    · rw [if_pos he]
    · rw [if_neg he]
      dsimp only
      rw [h1, h2, h3]

theorem c5_snap_unmatched_fail_soft_witness :
    snap_to_nearest_element (1/4) (1/4) (1/10) (1/10) [] (3/50) =
      (1/4, 1/4, 1/10, 1/10, none) :=
  c5_snap_unmatched_fail_soft (1/4) (1/4) (1/10) (1/10) (3/50) [] (Or.inl rfl)

/-!
## C10 — snap output is the input or a listed element's bbox
-/

/-- C10: `snap_to_nearest_element` returns either exactly its input quadruple
with no match, or exactly the `xywh` bbox of one element of the supplied list
together with that element's id; it never blends or modifies geometry. -/
theorem c10_snap_output_shape :
    ∀ (gx gy gw gh maxd : ℚ) (es : List OmniElem),
      snap_to_nearest_element gx gy gw gh es maxd = (gx, gy, gw, gh, none) ∨
      ∃ e ∈ es, snap_to_nearest_element gx gy gw gh es maxd =
        (e.x1, e.y1, e.w, e.h, some e.id) := by
  intro gx gy gw gh maxd es
  unfold snap_to_nearest_element
  by_cases he : es.isEmpty
  · rw [if_pos he]
    exact Or.inl rfl
  · rw [if_neg he]
    dsimp only
    rcases h1 : snapPass1 (if 0 < gw * gh then gw * gh else 1/10000)
        (gx + gw / 2) (gy + gh / 2) es with _ | e1
    · rcases h2 : snapPass2Accept (if 0 < gw * gh then gw * gh else 1/10000)
          gx gy (gx + gw) (gy + gh) (gw * gh) es with _ | e2
      · rcases h3 : snapPass3Accept (if 0 < gw * gh then gw * gh else 1/10000)
            (gx + gw / 2) (gy + gh / 2) maxd es with _ | e3
        · exact Or.inl rfl
        · exact Or.inr ⟨e3, snapPass3Accept_mem _ _ _ _ _ _ h3, rfl⟩
      · exact Or.inr ⟨e2, snapPass2Accept_mem _ _ _ _ _ _ _ _ h2, rfl⟩
    · exact Or.inr ⟨e1, snapPass1_mem _ _ _ _ _ h1, rfl⟩

/-!
## C2 — snap resolver vs its spec description
-/

theorem snapPass1_eq_spec (d gcx gcy : ℚ) (es : List OmniElem) :
    snapPass1 d gcx gcy es = specContainmentPass gcx gcy (specEligibleSet d es) := by
  unfold snapPass1 specContainmentPass specEligibleSet
  rw [List.filter_filter]

theorem snapPass2_eq_spec (d gx1 gy1 gx2 gy2 gArea : ℚ) (es : List OmniElem) :
    snapPass2 d gx1 gy1 gx2 gy2 gArea es =
      specIoUPass gx1 gy1 gx2 gy2 gArea (specEligibleSet d es) := by
  unfold snapPass2 specIoUPass specEligibleSet
  rw [foldl_filter_eq]
  refine foldl_congr_inv (fun acc => 0 ≤ acc.2) _ _ ?_ ?_ es (none, 0) (by norm_num)
  · intro acc e hacc
    dsimp only
    by_cases h1 : sizeEligible d e
    · rw [if_pos h1]
      by_cases h2 : max gx1 e.x1 < min gx2 e.x2 ∧ max gy1 e.y1 < min gy2 e.y2
      · rw [if_pos h2]
        by_cases h3 : acc.2 <
            (if 0 < gArea + e.area - (min gx2 e.x2 - max gx1 e.x1) * (min gy2 e.y2 - max gy1 e.y1)
             then (min gx2 e.x2 - max gx1 e.x1) * (min gy2 e.y2 - max gy1 e.y1) /
               (gArea + e.area - (min gx2 e.x2 - max gx1 e.x1) * (min gy2 e.y2 - max gy1 e.y1))
             else 0)
        · rw [if_pos h3]
          exact le_of_lt (lt_of_le_of_lt hacc h3)
        · rw [if_neg h3]
          exact hacc
      · rw [if_neg h2]
        exact hacc
    · rw [if_neg h1]
      exact hacc
  · intro acc e hacc
    dsimp only
    by_cases h1 : sizeEligible d e
    · rw [if_pos h1, if_pos h1]
      by_cases h2 : max gx1 e.x1 < min gx2 e.x2 ∧ max gy1 e.y1 < min gy2 e.y2
      · rw [if_pos h2]
        have hio : iouCand gx1 gy1 gx2 gy2 gArea e =
            (if 0 < gArea + e.area - (min gx2 e.x2 - max gx1 e.x1) * (min gy2 e.y2 - max gy1 e.y1)
             then (min gx2 e.x2 - max gx1 e.x1) * (min gy2 e.y2 - max gy1 e.y1) /
               (gArea + e.area - (min gx2 e.x2 - max gx1 e.x1) * (min gy2 e.y2 - max gy1 e.y1))
             else 0) := by
          unfold iouCand
          rw [if_pos h2]
        rw [hio]
      · rw [if_neg h2]
        have hio : iouCand gx1 gy1 gx2 gy2 gArea e = 0 := by
          unfold iouCand
          rw [if_neg h2]
        rw [hio, if_neg (not_lt.mpr hacc)]
    · rw [if_neg h1, if_neg h1]

theorem snapPass3_eq_spec (d gcx gcy : ℚ) (es : List OmniElem) :
    snapPass3 d gcx gcy es = specDistancePass gcx gcy (specEligibleSet d es) := by
  unfold snapPass3 specDistancePass specEligibleSet pickMinBy
  rw [foldl_filter_eq]
  congr 1
  funext x y
  by_cases h1 : sizeEligible d y
  · rw [if_pos h1, if_pos h1]
    rcases x with _ | b <;> rfl
  · rw [if_neg h1, if_neg h1]

/-- C2 (counterexample): the claimed eligibility gate
`element.area / max(candidate.area, ε²) ≥ 0.15` differs from the code.  For
the candidate `(0, 0, 0.02, 0.01)` (area 0.0002) and a single containing
element of area 0.00005, the code's gate divides by the candidate's own
positive area (ratio 0.25, eligible: the resolver snaps to the element),
while the claimed gate divides by `max(0.0002, 0.0004)` (ratio 0.125,
ineligible: the claimed resolver returns the candidate unmatched). -/
theorem c2_size_gate_counterexample :
    snap_to_nearest_element 0 0 (1/50) (1/100) [⟨0, 1/200, 1/400, 3/200, 3/400⟩] (3/50) =
      (1/200, 1/400, 1/100, 1/200, some 0) ∧
    snapResolverSpec specGateClaim 0 0 (1/50) (1/100) (3/50)
        [⟨0, 1/200, 1/400, 3/200, 3/400⟩] =
      (0, 0, 1/50, 1/100, none) := by
  constructor
  · norm_num [snap_to_nearest_element, snapPass1, snapPass2Accept, snapPass2,
      snapPass3Accept, snapPass3, pickMinBy, sizeEligible, containsCenterOf,
      OmniElem.area, OmniElem.w, OmniElem.h, List.filter, List.foldl]
  · norm_num [snapResolverSpec, specEligibleSet, specContainmentPass, specIoUPass,
      specDistancePass, pickMinBy, sizeEligible, containsCenterOf, specGateClaim,
      OmniElem.area, OmniElem.w, OmniElem.h, List.filter, List.foldl, max_def]

/-- C2 (amended): the Snap Resolver behaves exactly as the claim's three
ordered gated passes describe, except that the size-ratio gate divides by the
candidate's own area when it is positive and by 0.0001 otherwise (not by
`max(candidate.area, 0.02²)`). -/
theorem c2_snap_three_pass_amended :
    ∀ (gx gy gw gh maxd : ℚ) (es : List OmniElem),
      snap_to_nearest_element gx gy gw gh es maxd =
        snapResolverSpec codeGate gx gy gw gh maxd es := by
  intro gx gy gw gh maxd es
  unfold snap_to_nearest_element snapResolverSpec snapPass2Accept snapPass3Accept
  by_cases he : es.isEmpty
  · rw [if_pos he, if_pos he]
  · rw [if_neg he, if_neg he]
    dsimp only
    simp only [codeGate]
    rw [snapPass1_eq_spec, snapPass2_eq_spec, snapPass3_eq_spec]
    set gA := if 0 < gw * gh then gw * gh else (1:ℚ)/10000 with hga
    set EL := specEligibleSet gA es with hel
    set gcx := gx + gw / 2 with hgcx
    set gcy := gy + gh / 2 with hgcy
    rcases h1 : specContainmentPass gcx gcy EL with _ | e1
    · rcases h2 : specIoUPass gx gy (gx + gw) (gy + gh) (gw * gh) EL with ⟨eo, b⟩
      match eo with
      | some e2 =>
        by_cases hb : 1/20 < b
        · simp only [if_pos hb]
        · simp only [if_neg hb]
          rcases h3 : specDistancePass gcx gcy EL with _ | e3
          · rfl
          · by_cases hd : distSqTo gcx gcy e3 ≤ maxd^2
            · simp only [if_pos hd]
            · simp only [if_neg hd]
      | none =>
        rcases h3 : specDistancePass gcx gcy EL with _ | e3
        · rfl
        · by_cases hd : distSqTo gcx gcy e3 ≤ maxd^2
          · simp only [if_pos hd]
          · simp only [if_neg hd]
    · rfl

/-!
## C3 — cross-validation of element_id and box_2d
-/

theorem elemLookup_fold_aux (i : ℤ) :
    ∀ (es : List OmniElem) (acc : Option OmniElem) (e : OmniElem),
      es.foldl (fun acc x => if x.id = i then some x else acc) acc = some e →
      acc = some e ∨ (e ∈ es ∧ e.id = i) := by
  intro es
  induction es with
  | nil => intro acc e h; exact Or.inl h
  | cons a t ih =>
    intro acc e h
    rcases ih _ e h with h1 | h1
    · dsimp only at h1
      by_cases ha : a.id = i
      · rw [if_pos ha] at h1
        cases h1
        exact Or.inr ⟨List.mem_cons_self a t, ha⟩
      · rw [if_neg ha] at h1
        exact Or.inl h1
    · exact Or.inr ⟨List.mem_cons_of_mem a h1.1, h1.2⟩

theorem elemLookup_mem (es : List OmniElem) (i : ℤ) (e : OmniElem)
    (h : elemLookup es i = some e) : e ∈ es ∧ e.id = i := by
  rcases elemLookup_fold_aux i es none e h with h1 | h1
  · exact absurd h1 (by simp)
  · exact h1

/-- When the snap resolver reports a matched id, the returned quadruple is
the `xywh` bbox of a member of the list carrying that id. -/
theorem snap_some_mem (gx gy gw gh maxd : ℚ) (es : List OmniElem)
    (sx sy sw sh : ℚ) (j : ℤ)
    (h : snap_to_nearest_element gx gy gw gh es maxd = (sx, sy, sw, sh, some j)) :
    ∃ e ∈ es, sx = e.x1 ∧ sy = e.y1 ∧ sw = e.w ∧ sh = e.h ∧ j = e.id := by
  unfold snap_to_nearest_element at h
  by_cases he : es.isEmpty
  · rw [if_pos he] at h
    simp [Prod.ext_iff] at h
  · rw [if_neg he] at h
    dsimp only at h
    rcases h1 : snapPass1 (if 0 < gw * gh then gw * gh else 1/10000)
        (gx + gw / 2) (gy + gh / 2) es with _ | e1
    · rw [h1] at h
      rcases h2 : snapPass2Accept (if 0 < gw * gh then gw * gh else 1/10000)
          gx gy (gx + gw) (gy + gh) (gw * gh) es with _ | e2
      · rw [h2] at h
        rcases h3 : snapPass3Accept (if 0 < gw * gh then gw * gh else 1/10000)
            (gx + gw / 2) (gy + gh / 2) maxd es with _ | e3
        · rw [h3] at h
          simp [Prod.ext_iff] at h
        · rw [h3] at h
          simp only [Prod.mk.injEq, Option.some.injEq] at h
          exact ⟨e3, snapPass3Accept_mem _ _ _ _ _ _ h3,
            h.1.symm, h.2.1.symm, h.2.2.1.symm, h.2.2.2.1.symm, h.2.2.2.2.symm⟩
      · rw [h2] at h
        simp only [Prod.mk.injEq, Option.some.injEq] at h
        exact ⟨e2, snapPass2Accept_mem _ _ _ _ _ _ _ _ h2,
          h.1.symm, h.2.1.symm, h.2.2.1.symm, h.2.2.2.1.symm, h.2.2.2.2.symm⟩
    · rw [h1] at h
      simp only [Prod.mk.injEq, Option.some.injEq] at h
      exact ⟨e1, snapPass1_mem _ _ _ _ _ h1,
        h.1.symm, h.2.1.symm, h.2.2.1.symm, h.2.2.2.1.symm, h.2.2.2.2.symm⟩

/-- C3: when a step carries an `element_id` resolving to a detected element
and a 4-value `box_2d` (converted from the 0–1000 scale), `_resolve_bbox`
returns the element's rectangle if the two centers are within 0.08 of each
other; otherwise it runs the Snap Resolver on the converted box and returns
the snapped element's rectangle when it snapped to a different element, and
the `element_id` element's rectangle when it snapped to the same element or
to nothing.  (Detected elements are assumed to satisfy the engine's rectangle
invariant — so the final clamp is the identity — and to carry distinct ids.) -/
theorem c3_cross_validation (eid : ℤ) (ymin xmin ymax xmax : ℚ)
    (es : List OmniElem) (elem : OmniElem)
    (hlook : elemLookup es eid = some elem)
    (hOK : ∀ e ∈ es, ElemOK e)
    (huniq : (es.map OmniElem.id).Nodup) :
    ((elem.cx - (xmin / 1000 + (xmax - xmin) / 1000 / 2))^2 +
        (elem.cy - (ymin / 1000 + (ymax - ymin) / 1000 / 2))^2 ≤ (2/25)^2 →
      resolve_bbox (some eid) (some [ymin, xmin, ymax, xmax]) es =
        (elem.x1, elem.y1, elem.w, elem.h)) ∧
    (¬ ((elem.cx - (xmin / 1000 + (xmax - xmin) / 1000 / 2))^2 +
        (elem.cy - (ymin / 1000 + (ymax - ymin) / 1000 / 2))^2 ≤ (2/25)^2) →
      ∀ (sx sy sw sh : ℚ) (sid : Option ℤ),
        snap_to_nearest_element (xmin / 1000) (ymin / 1000) ((xmax - xmin) / 1000)
            ((ymax - ymin) / 1000) es (3/50) = (sx, sy, sw, sh, sid) →
        ((∃ j, sid = some j ∧ j ≠ eid) →
          resolve_bbox (some eid) (some [ymin, xmin, ymax, xmax]) es = (sx, sy, sw, sh)) ∧
        (sid = some eid →
          resolve_bbox (some eid) (some [ymin, xmin, ymax, xmax]) es =
            (elem.x1, elem.y1, elem.w, elem.h)) ∧
        (sid = none →
          resolve_bbox (some eid) (some [ymin, xmin, ymax, xmax]) es =
            (elem.x1, elem.y1, elem.w, elem.h))) := by
  have hmem := elemLookup_mem es eid elem hlook
  have hclampE : resolveClamp elem.x1 elem.y1 elem.w elem.h =
      (elem.x1, elem.y1, elem.w, elem.h) :=
    resolveClamp_fixed _ _ _ _ (hOK elem hmem.1)
  constructor
  · intro hagree
    unfold resolve_bbox resolve_bbox_core
    dsimp only [Option.bind, box2dToRaw]
    rw [hlook]
    dsimp only
    rw [if_pos hagree]
    exact hclampE
  · intro hdis sx sy sw sh sid hsnap
    unfold resolve_bbox resolve_bbox_core
    dsimp only [Option.bind, box2dToRaw]
    rw [hlook]
    dsimp only
    rw [if_neg hdis, hsnap]
    refine ⟨?_, ?_, ?_⟩
    · rintro ⟨j, rfl, hne⟩
      obtain ⟨e, hemem, hex, hey, hew, heh, hid⟩ :=
        snap_some_mem _ _ _ _ _ _ _ _ _ _ _ hsnap
      dsimp only
      subst hex hey hew heh
      exact resolveClamp_fixed _ _ _ _ (hOK e hemem)
    · rintro rfl
      obtain ⟨e, hemem, hex, hey, hew, heh, hid⟩ :=
        snap_some_mem _ _ _ _ _ _ _ _ _ _ _ hsnap
      have heq : e = elem :=
        List.inj_on_of_nodup_map huniq hemem hmem.1 (by rw [← hid, hmem.2])
      dsimp only
      subst hex hey hew heh
      rw [heq] at hemem ⊢
      exact resolveClamp_fixed _ _ _ _ (hOK elem hmem.1)
    · rintro rfl
      dsimp only
      exact hclampE

theorem c3_cross_validation_witness :
    ((⟨5, 1/2, 1/2, 3/5, 3/5⟩ : OmniElem).cx -
        (500 / 1000 + ((600:ℚ) - 500) / 1000 / 2))^2 +
      ((⟨5, 1/2, 1/2, 3/5, 3/5⟩ : OmniElem).cy -
        (500 / 1000 + ((600:ℚ) - 500) / 1000 / 2))^2 ≤ (2/25)^2 ∧
    resolve_bbox (some 5) (some [500, 500, 600, 600])
        [⟨5, 1/2, 1/2, 3/5, 3/5⟩] = (1/2, 1/2, 1/10, 1/10) := by
  have hlook : elemLookup [(⟨5, 1/2, 1/2, 3/5, 3/5⟩ : OmniElem)] 5 =
      some ⟨5, 1/2, 1/2, 3/5, 3/5⟩ := by
    norm_num [elemLookup, List.foldl]
  have hOK : ∀ e ∈ [(⟨5, 1/2, 1/2, 3/5, 3/5⟩ : OmniElem)], ElemOK e := by
    intro e he
    simp only [List.mem_singleton] at he
    subst he
    norm_num [ElemOK, RectOK, OmniElem.w, OmniElem.h]
  have huniq : (([(⟨5, 1/2, 1/2, 3/5, 3/5⟩ : OmniElem)]).map OmniElem.id).Nodup := by
    simp
  have hd2 : ((⟨5, 1/2, 1/2, 3/5, 3/5⟩ : OmniElem).cx -
        (500 / 1000 + ((600:ℚ) - 500) / 1000 / 2))^2 +
      ((⟨5, 1/2, 1/2, 3/5, 3/5⟩ : OmniElem).cy -
        (500 / 1000 + ((600:ℚ) - 500) / 1000 / 2))^2 ≤ (2/25)^2 := by
    norm_num [OmniElem.cx, OmniElem.cy, OmniElem.w, OmniElem.h]
  refine ⟨hd2, ?_⟩
  have := (c3_cross_validation 5 500 500 600 600
      [⟨5, 1/2, 1/2, 3/5, 3/5⟩] ⟨5, 1/2, 1/2, 3/5, 3/5⟩ hlook hOK huniq).1 hd2
  have hw : (⟨5, 1/2, 1/2, 3/5, 3/5⟩ : OmniElem).w = 1/10 := by norm_num [OmniElem.w]
  have hh : (⟨5, 1/2, 1/2, 3/5, 3/5⟩ : OmniElem).h = 1/10 := by norm_num [OmniElem.h]
  rw [hw, hh] at this
  exact this

/-!
## C6 — grid-marker bounding box
-/

theorem markerLookup_fold_aux (i : ℤ) :
    ∀ (ms : List SoMMarker) (acc : Option SoMMarker) (m : SoMMarker),
      ms.foldl (fun acc x => if x.id = i then some x else acc) acc = some m →
      acc = some m ∨ (m ∈ ms ∧ m.id = i) := by
  intro ms
  induction ms with
  | nil => intro acc m h; exact Or.inl h
  | cons a t ih =>
    intro acc m h
    rcases ih _ m h with h1 | h1
    · dsimp only at h1
      by_cases ha : a.id = i
      · rw [if_pos ha] at h1
        cases h1
        exact Or.inr ⟨List.mem_cons_self a t, ha⟩
      · rw [if_neg ha] at h1
        exact Or.inl h1
    · exact Or.inr ⟨List.mem_cons_of_mem a h1.1, h1.2⟩

theorem markerLookup_mem (ms : List SoMMarker) (i : ℤ) (m : SoMMarker)
    (h : markerLookup ms i = some m) : m ∈ ms ∧ m.id = i := by
  rcases markerLookup_fold_aux i ms none m h with h1 | h1
  · exact absurd h1 (by simp)
  · exact h1

theorem filterMap_filter_isSome {α β : Type} (f : α → Option β) (l : List α) :
    (l.filter (fun x => (f x).isSome)).filterMap f = l.filterMap f := by
  induction l with
  | nil => rfl
  | cons a t ih =>
    cases hf : f a with
    | none => simp [List.filter_cons, List.filterMap_cons, hf, ih]
    | some b => simp [List.filter_cons, List.filterMap_cons, hf, ih]

theorem foldl_min_le_init {α : Type} (f : α → ℚ) :
    ∀ (l : List α) (a : ℚ), l.foldl (fun acc m => min acc (f m)) a ≤ a := by
  intro l
  induction l with
  | nil => intro a; exact le_rfl
  | cons m t ih => intro a; exact (ih (min a (f m))).trans (min_le_left _ _)

/-- Every member of a `filterMap (markerLookup ms)` list is a marker of `ms`. -/
theorem filterMap_markerLookup_mem (ids : List ℤ) (ms : List SoMMarker)
    (m : SoMMarker) (h : m ∈ ids.filterMap (markerLookup ms)) : m ∈ ms := by
  obtain ⟨i, _, hlk⟩ := List.mem_filterMap.mp h
  exact (markerLookup_mem ms i m hlk).1

/-- C6: unknown marker ids are dropped (the resulting rectangle depends only
on the ids that resolve); when at least one id is known and the markers'
centers are normalized, the padded spanning box is clamped to the unit square
with the 0.02 minimum size enforced; and markers at `(0.30, 0.40)` and
`(0.35, 0.40)` with pad 0.08 yield `(x = 0.22, y = 0.32, w = 0.21, h = 0.16)`. -/
theorem c6_grid_marker_bbox :
    (∀ (ids : List ℤ) (ms : List SoMMarker),
        som_step_rect ids ms =
          som_step_rect (ids.filter (fun i => (markerLookup ms i).isSome)) ms) ∧
    (∀ (ids : List ℤ) (ms : List SoMMarker),
        ids.filterMap (markerLookup ms) ≠ [] →
        (∀ m ∈ ms, 0 ≤ m.cx ∧ m.cx ≤ 1 ∧ 0 ≤ m.cy ∧ m.cy ≤ 1) →
        RectOK (som_step_rect ids ms).1 (som_step_rect ids ms).2.1
          (som_step_rect ids ms).2.2.1 (som_step_rect ids ms).2.2.2) ∧
    som_step_rect [0, 1] [⟨0, 3/10, 2/5⟩, ⟨1, 7/20, 2/5⟩] =
      (11/50, 8/25, 21/100, 4/25) := by
  refine ⟨?_, ?_, ?_⟩
  · intro ids ms
    unfold som_step_rect
    rw [filterMap_filter_isSome]
  · intro ids ms hne hcoord
    rcases hfd : ids.filterMap (markerLookup ms) with _ | ⟨m0, rest⟩
    · exact absurd hfd hne
    · have hm0 : m0 ∈ ms := filterMap_markerLookup_mem ids ms m0 (by rw [hfd]; simp)
      have hminx : rest.foldl (fun a m => min a m.cx) m0.cx ≤ 1 :=
        (foldl_min_le_init SoMMarker.cx rest m0.cx).trans (hcoord m0 hm0).2.1
      have hminy : rest.foldl (fun a m => min a m.cy) m0.cy ≤ 1 :=
        (foldl_min_le_init SoMMarker.cy rest m0.cy).trans (hcoord m0 hm0).2.2.2
      unfold som_step_rect
      rw [hfd]
      dsimp only
      set mincx := rest.foldl (fun a m => min a m.cx) m0.cx with hmincx
      set mincy := rest.foldl (fun a m => min a m.cy) m0.cy with hmincy
      set maxcx := rest.foldl (fun a m => max a m.cx) m0.cx with hmaxcx
      set maxcy := rest.foldl (fun a m => max a m.cy) m0.cy with hmaxcy
      set x := max 0 (mincx - 2/25) with hx
      set y := max 0 (mincy - 2/25) with hy
      have hx0 : 0 ≤ x := le_max_left _ _
      have hy0 : 0 ≤ y := le_max_left _ _
      have hxle : x ≤ 23/25 := max_le (by norm_num) (by linarith)
      have hyle : y ≤ 23/25 := max_le (by norm_num) (by linarith)
      refine ⟨hx0, by linarith, hy0, by linarith, le_max_right _ _, ?_, le_max_right _ _, ?_⟩
      · have hwle : max (min (maxcx - mincx + 2/25 * 2) (1 - x)) (1/50) ≤ 1 - x :=
          max_le (min_le_right _ _) (by linarith)
        linarith
      · have hhle : max (min (maxcy - mincy + 2/25 * 2) (1 - y)) (1/50) ≤ 1 - y :=
          max_le (min_le_right _ _) (by linarith)
        linarith
  · norm_num [som_step_rect, markerLookup, List.filterMap, List.foldl, max_def, min_def]

theorem c6_grid_marker_bbox_witness :
    RectOK (som_step_rect [0, 1] [⟨0, 3/10, 2/5⟩, ⟨1, 7/20, 2/5⟩]).1
      (som_step_rect [0, 1] [⟨0, 3/10, 2/5⟩, ⟨1, 7/20, 2/5⟩]).2.1
      (som_step_rect [0, 1] [⟨0, 3/10, 2/5⟩, ⟨1, 7/20, 2/5⟩]).2.2.1
      (som_step_rect [0, 1] [⟨0, 3/10, 2/5⟩, ⟨1, 7/20, 2/5⟩]).2.2.2 := by
  refine c6_grid_marker_bbox.2.1 [0, 1] [⟨0, 3/10, 2/5⟩, ⟨1, 7/20, 2/5⟩] ?_ ?_
  · simp [markerLookup, List.filterMap, List.foldl]
  · intro m hm
    simp only [List.mem_cons, List.not_mem_nil, or_false] at hm
    rcases hm with rfl | rfl
    · norm_num
    · norm_num

/-!
## C7 — edge-aware crop geometry
-/

theorem crop_clamp_stage (c2 d2 w3 e3 : ℚ) (hw3 : 0 < w3) (hc2 : c2 < 1)
    (he3 : 0 < e3) (hd2 : d2 < 1) :
    0 ≤ max 0 c2 ∧ 0 ≤ max 0 d2 ∧
    max 0 c2 + min w3 (1 - max 0 c2) ≤ 1 ∧
    max 0 d2 + min e3 (1 - max 0 d2) ≤ 1 ∧
    0 < min w3 (1 - max 0 c2) ∧ 0 < min e3 (1 - max 0 d2) := by
  have hx : max 0 c2 < 1 := max_lt (by norm_num) hc2
  have hy : max 0 d2 < 1 := max_lt (by norm_num) hd2
  refine ⟨le_max_left _ _, le_max_left _ _, ?_, ?_, ?_, ?_⟩
  · linarith [min_le_right w3 (1 - max 0 c2)]
  · linarith [min_le_right e3 (1 - max 0 d2)]
  · exact lt_min hw3 (by linarith)
  · exact lt_min he3 (by linarith)

theorem edge_clamp_one (c : ℚ) : max 0 c + min (1 - c) (1 - max 0 c) = 1 := by
  rcases le_total 0 c with h | h
  · rw [max_eq_right h, min_self]
    ring
  · rw [max_eq_left h, min_eq_right (by linarith)]
    ring

/-- C7: for every coarse target rectangle satisfying the engine invariant,
`_crop_region` produces a crop with `0 ≤ cx`, `0 ≤ cy`, `cx + cw ≤ 1`,
`cy + ch ≤ 1` and `cw, ch > 0`, and it extends to any screen edge whose
distance from the target's center is below 0.15: a center within 0.15 of the
left (top) edge forces `cx = 0` (`cy = 0`), and within 0.15 of the right
(bottom) edge forces `cx + cw = 1` (`cy + ch = 1`). -/
theorem c7_crop_region_geometry (tx ty tw th cx cy cw ch : ℚ)
    (hr : RectOK tx ty tw th)
    (heq : crop_region tx ty tw th = (cx, cy, cw, ch)) :
    0 ≤ cx ∧ 0 ≤ cy ∧ cx + cw ≤ 1 ∧ cy + ch ≤ 1 ∧ 0 < cw ∧ 0 < ch ∧
    (tx + tw / 2 < 3/20 → cx = 0) ∧
    (ty + th / 2 < 3/20 → cy = 0) ∧
    (17/20 < tx + tw / 2 → cx + cw = 1) ∧
    (17/20 < ty + th / 2 → cy + ch = 1) := by
  obtain ⟨h1, h2, h3, h4, h5, h6, h7, h8⟩ := hr
  unfold crop_region at heq
  dsimp only at heq
  have hcwlt : ¬ (tw + 1/10 * 2 < 1/5) := by linarith
  have hchlt : ¬ (th + 1/10 * 2 < 1/5) := by linarith
  simp only [if_neg hcwlt, if_neg hchlt] at heq
  simp only [Prod.mk.injEq] at heq
  obtain ⟨hcx, hcy, hcw, hch⟩ := heq
  subst hcx hcy hcw hch
  have hCX2lt : (if tx + tw / 2 < 3/20 then (0:ℚ) else tx - 1/10) < 1 := by
    by_cases hl : tx + tw / 2 < 3/20
    · rw [if_pos hl]
      norm_num
    · rw [if_neg hl]
      linarith
  have hCY2lt : (if ty + th / 2 < 3/20 then (0:ℚ) else ty - 1/10) < 1 := by
    by_cases hl : ty + th / 2 < 3/20
    · rw [if_pos hl]
      norm_num
    · rw [if_neg hl]
      linarith
  have hCW3pos : 0 < (if 17/20 < tx + tw / 2
      then 1 - (if tx + tw / 2 < 3/20 then (0:ℚ) else tx - 1/10)
      else (if tx + tw / 2 < 3/20 then tw + 1/10 * 2 + (tx - 1/10) else tw + 1/10 * 2)) := by
    by_cases hrt : 17/20 < tx + tw / 2
    · rw [if_pos hrt]
      by_cases hl : tx + tw / 2 < 3/20
      · linarith
      · rw [if_neg hl]
        linarith
    · rw [if_neg hrt]
      by_cases hl : tx + tw / 2 < 3/20
      · rw [if_pos hl]
        linarith
      · rw [if_neg hl]
        linarith
  have hCH3pos : 0 < (if 17/20 < ty + th / 2
      then 1 - (if ty + th / 2 < 3/20 then (0:ℚ) else ty - 1/10)
      else (if ty + th / 2 < 3/20 then th + 1/10 * 2 + (ty - 1/10) else th + 1/10 * 2)) := by
    by_cases hrt : 17/20 < ty + th / 2
    · rw [if_pos hrt]
      by_cases hl : ty + th / 2 < 3/20
      · linarith
      · rw [if_neg hl]
        linarith
    · rw [if_neg hrt]
      by_cases hl : ty + th / 2 < 3/20
      · rw [if_pos hl]
        linarith
      · rw [if_neg hl]
        linarith
  obtain ⟨hs1, hs2, hs3, hs4, hs5, hs6⟩ :=
    crop_clamp_stage _ _ _ _ hCW3pos hCX2lt hCH3pos hCY2lt
  refine ⟨hs1, hs2, hs3, hs4, hs5, hs6, ?_, ?_, ?_, ?_⟩
  · intro hp
    rw [if_pos hp]
    simp
  · intro hp
    rw [if_pos hp]
    simp
  · intro hp
    have hlne : ¬ (tx + tw / 2 < 3/20) := by linarith
    rw [if_neg hlne, if_pos hp]
    exact edge_clamp_one (tx - 1/10)
  · intro hp
    have hlne : ¬ (ty + th / 2 < 3/20) := by linarith
    rw [if_neg hlne, if_pos hp]
    exact edge_clamp_one (ty - 1/10)

theorem c7_crop_region_geometry_witness :
    (crop_region (3/100) (1/2) (1/50) (1/50)).1 = 0 := by
  rcases heq : crop_region (3/100) (1/2) (1/50) (1/50) with ⟨cx, cy, cw, ch⟩
  have := c7_crop_region_geometry (3/100) (1/2) (1/50) (1/50) cx cy cw ch
    (by norm_num [RectOK]) heq
  exact this.2.2.2.2.2.2.1 (by norm_num)

/-!
## C8 — verification step fail-soft
-/

/-- C8: `_verify_and_correct_step` returns exactly its input rectangle when
the crop contains no detected elements, when the verification call fails,
when the verdict is correct, or when the verdict is incorrect but carries no
usable correction (no resolvable `correct_element_id` in the renumbered
crop-local elements and no 4-value `box_2d`); conversely the rectangle is
changed only when an incorrect verdict supplies a usable correction. -/
theorem c8_verify_and_correct_fail_soft :
    ∀ (rx ry rw rh : ℚ) (ces : List OmniElem) (verdict : Option VerifyResult),
      (ces = [] →
        verify_and_correct_step rx ry rw rh ces verdict = (rx, ry, rw, rh)) ∧
      (verdict = none →
        verify_and_correct_step rx ry rw rh ces verdict = (rx, ry, rw, rh)) ∧
      (∀ v, verdict = some v → v.correct = true →
        verify_and_correct_step rx ry rw rh ces verdict = (rx, ry, rw, rh)) ∧
      (∀ v, verdict = some v → v.correct = false →
        v.correct_element_id.bind (elemLookup (renumber (List.insertionSort posLt ces))) =
          none →
        v.box_2d.bind box2dToRaw = none →
        verify_and_correct_step rx ry rw rh ces verdict = (rx, ry, rw, rh)) ∧
      (verify_and_correct_step rx ry rw rh ces verdict ≠ (rx, ry, rw, rh) →
        ∃ v, verdict = some v ∧ v.correct = false ∧
          (v.correct_element_id.bind
              (elemLookup (renumber (List.insertionSort posLt ces))) ≠ none ∨
            v.box_2d.bind box2dToRaw ≠ none)) := by
  intro rx ry rw rh ces verdict
  have hA : ces = [] →
      verify_and_correct_step rx ry rw rh ces verdict = (rx, ry, rw, rh) := by
    intro h
    subst h
    rcases verdict with _ | v
    · rfl
    · rfl
  have hB : verdict = none →
      verify_and_correct_step rx ry rw rh ces verdict = (rx, ry, rw, rh) := by
    intro h
    subst h
    unfold verify_and_correct_step
    dsimp only
    by_cases hemp : (renumber (List.insertionSort posLt ces)).isEmpty
    · rw [if_pos hemp]
    · rw [if_neg hemp]
  have hC : ∀ v, verdict = some v → v.correct = true →
      verify_and_correct_step rx ry rw rh ces verdict = (rx, ry, rw, rh) := by
    intro v hv hc
    subst hv
    unfold verify_and_correct_step
    dsimp only
    by_cases hemp : (renumber (List.insertionSort posLt ces)).isEmpty
    · rw [if_pos hemp]
    · rw [if_neg hemp]
      rw [if_pos hc]
  have hD : ∀ v, verdict = some v → v.correct = false →
      v.correct_element_id.bind (elemLookup (renumber (List.insertionSort posLt ces))) =
        none →
      v.box_2d.bind box2dToRaw = none →
      verify_and_correct_step rx ry rw rh ces verdict = (rx, ry, rw, rh) := by
    intro v hv hc hl hb
    subst hv
    unfold verify_and_correct_step
    dsimp only
    by_cases hemp : (renumber (List.insertionSort posLt ces)).isEmpty
    · rw [if_pos hemp]
    · rw [if_neg hemp]
      rw [if_neg (by simp [hc])]
      rw [hl, hb]
  refine ⟨hA, hB, hC, hD, ?_⟩
  intro hne
  rcases hv : verdict with _ | v
  · exact absurd (hB hv) hne
  · by_cases hc : v.correct = true
    · exact absurd (hC v hv hc) hne
    · have hcf : v.correct = false := by
        simpa using hc
      by_cases hl : v.correct_element_id.bind
          (elemLookup (renumber (List.insertionSort posLt ces))) = none
      · by_cases hb : v.box_2d.bind box2dToRaw = none
        · exact absurd (hD v hv hcf hl hb) hne
        · exact ⟨v, rfl, hcf, Or.inr hb⟩
      · exact ⟨v, rfl, hcf, Or.inl hl⟩

theorem c8_verify_and_correct_fail_soft_witness :
    verify_and_correct_step (3/10) (3/10) (1/10) (1/10) [] none = (3/10, 3/10, 1/10, 1/10) :=
  (c8_verify_and_correct_fail_soft (3/10) (3/10) (1/10) (1/10) [] none).1 rfl
